import Mathlib

/-!
# Verification of the Glove Android-automation controller

Shallow embedding of `src/controller.py`: the ADB command dispatcher
(`execute_adb_command`), the Gemini decision-client reply handling
(`get_adb_commands_from_gemini`), and the automation control loop
(`AutomationWorker.run`), together with theorems settling the frozen
claims about them.
-/

namespace Glove

/-! ## Python string helpers

Models of the Python `str` operations the controller uses:
`str.split()` (split on runs of whitespace, no empty fields),
`str.strip()`, `str.startswith`, `str.endswith`.
-/

/-- Characters that the Python `str.split` and `str.strip` methods treat as whitespace
(the ASCII fragment). -/
def isPyWs (c : Char) : Bool :=
  c = ' ' || c = '\t' || c = '\n' || c = '\r' || c = '\x0b' || c = '\x0c'

/-- Accumulator worker for `pySplit`: `acc` holds the current token reversed. -/
def pySplitAux : List Char → List Char → List String
  | [], acc => if acc.isEmpty then [] else [String.mk acc.reverse]
  | c :: cs, acc =>
      if isPyWs c then
        if acc.isEmpty then pySplitAux cs []
        else String.mk acc.reverse :: pySplitAux cs []
      else pySplitAux cs (c :: acc)

/-- The Python `str.split()` method with no arguments: maximal runs of non-whitespace
characters, leading/trailing/repeated whitespace ignored.  Also gives the
head token of `str.split(maxsplit=1)`. -/
def pySplit (s : String) : List String :=
  pySplitAux s.data []

/-- The Python `str.strip()` method, on a character list. -/
def pyStripData (l : List Char) : List Char :=
  ((l.dropWhile isPyWs).reverse.dropWhile isPyWs).reverse

/-- The Python `str.strip()` method. -/
def pyStrip (s : String) : String :=
  String.mk (pyStripData s.data)

/-- The Python `s.startswith(p)` method. -/
def pyStartsWith (s p : String) : Bool :=
  p.data.isPrefixOf s.data

/-- The Python `s.endswith(p)` method. -/
def pyEndsWith (s p : String) : Bool :=
  p.data.reverse.isPrefixOf s.data.reverse

/-! ## Device bridge: `execute_adb_command` (controller.py lines 210-258)

The subprocess outcome is abstracted as an oracle `proc` mapping the full
argument vector to what `subprocess.run(..., check=True)` did: normal
completion, `CalledProcessError` (non-zero exit), `FileNotFoundError`
(no `adb` binary), or any other exception. -/

/-- Outcome of one `subprocess.run(full_cmd, check=True)` call. -/
inductive ProcResult where
  | success
  | calledProcessError
  | fileNotFound
  | otherError
deriving DecidableEq, Repr

/-- The six leading tokens dispatched as direct `adb` commands
(controller.py line 220). -/
def directVerbs : List String :=
  ["screencap", "pull", "install", "push", "devices", "logcat"]

/-- The argument vector `execute_adb_command` hands to `subprocess.run`,
or `none` when `command.strip().split(maxsplit=1)` is empty and the
function returns early (controller.py lines 215-223). -/
def adbDispatch (command : String) : Option (List String) :=
  match pySplit command with
  | [] => none
  | tok :: _ =>
      if tok ∈ directVerbs then
        some ("adb" :: pySplit command)
      else
        some ("adb" :: "shell" :: pySplit command)

/-- `execute_adb_command(command)`: dispatch the command and return `True`
exactly when the subprocess call completes normally; every exception path
returns `False` (controller.py lines 210-258). -/
def execute_adb_command (proc : List String → ProcResult) (command : String) : Bool :=
  match adbDispatch command with
  | none => false
  | some full_cmd =>
      match proc full_cmd with
      | .success => true
      | .calledProcessError => false
      | .fileNotFound => false
      | .otherError => false

/-! ## JSON reply parsing

The controller feeds the reply text to the Python `json.loads` function and then uses
the resulting dict only through `.get("command")`, `.get("status")`,
`.get("reason", ...)` and `"error" in d`.  All replies the decision
service is schema-bound to produce (and all replies any theorem below
quantifies over) are flat JSON objects whose keys and values are strings
without escape sequences, so `json.loads` is modelled on exactly that
fragment: `jsonParse` parses `{"k": "v", ...}` objects with unescaped
string keys and values and fails on everything else, and the dict is kept
as the association list of members in reply order. -/

/-- Skip a run of JSON insignificant whitespace. -/
def skipWs : List Char → List Char
  | c :: cs => if isPyWs c then skipWs cs else c :: cs
  | [] => []

/-- Parse one JSON string literal (no escape sequences): consume the
opening quote, the body up to the next quote, and the closing quote. -/
def jsonString : List Char → Option (List Char × List Char)
  | '"' :: cs =>
      match cs.dropWhile (fun c => !(c = '"')) with
      | '"' :: rest => some (cs.takeWhile (fun c => !(c = '"')), rest)
      | _ => none
  | _ => none

/-- Parse a non-empty comma-separated list of `"key": "value"` members.
`fuel` bounds the recursion; callers pass one more than the input length,
which always suffices since every member consumes at least one character. -/
def jsonMembers : Nat → List Char → Option (List (String × String) × List Char)
  | 0, _ => none
  | fuel + 1, cs =>
      match jsonString (skipWs cs) with
      | none => none
      | some (k, rest) =>
          match skipWs rest with
          | ':' :: rest2 =>
              match jsonString (skipWs rest2) with
              | none => none
              | some (v, rest3) =>
                  match skipWs rest3 with
                  | ',' :: rest4 =>
                      match jsonMembers fuel rest4 with
                      | some (kvs, rest5) =>
                          some ((String.mk k, String.mk v) :: kvs, rest5)
                      | none => none
                  | rest5 => some ([(String.mk k, String.mk v)], rest5)
          | _ => none

/-- `json.loads` on the flat string-object fragment: a single `{...}`
object of string members, nothing but whitespace around it. -/
def jsonParse (s : String) : Option (List (String × String)) :=
  match skipWs s.data with
  | '{' :: cs =>
      match skipWs cs with
      | '}' :: rest => if (skipWs rest).isEmpty then some [] else none
      | _ =>
          match jsonMembers (cs.length + 1) cs with
          | some (kvs, rest) =>
              match skipWs rest with
              | '}' :: rest2 => if (skipWs rest2).isEmpty then some kvs else none
              | _ => none
          | none => none
  | _ => none

/-- Python `d.get(k)` on a parsed JSON object: with duplicate keys,
`json.loads` keeps the last occurrence, hence the reverse lookup. -/
def dictGet (d : List (String × String)) (k : String) : Option String :=
  (d.reverse.find? (fun kv => kv.1 = k)).map (fun kv => kv.2)

/-- Python `k in d` on a parsed JSON object. -/
def dictHasKey (d : List (String × String)) (k : String) : Bool :=
  d.any (fun kv => kv.1 = k)

/-! ## Decision client: `get_adb_commands_from_gemini` (lines 25-131)

The HTTP exchange is abstracted as an `ApiResult`: what the `requests`
call and the `candidates[0].content.parts[0].text` extraction produced.
`raw` stands for `json.dumps(result, ...)` of the HTTP response body. -/

/-- Outcome of the HTTP request plus candidate-text extraction in
`get_adb_commands_from_gemini`. -/
inductive ApiResult where
  /-- `requests.exceptions.RequestException` was raised (line 128). -/
  | transportError (e : String)
  /-- some other exception was raised (line 130). -/
  | unexpectedError (e : String)
  /-- the response JSON lacked `candidates[0].content.parts` (line 126);
  `raw` is the serialized response. -/
  | noContent (raw : String)
  /-- the candidate text was extracted (line 118); `raw` is the
  serialized response. -/
  | text (body : String) (raw : String)

/-- Lines 118-120: strip the text, then remove a ```` ```json ````/` ``` `
fence if and only if the stripped text starts with ```` ```json ```` and
ends with ` ``` `, stripping again afterwards.  The slice `[7:-3]` is
`drop 7` then `take (length - 10)`. -/
def stripFence (s : String) : String :=
  let t := pyStrip s
  if pyStartsWith t "```json" && pyEndsWith t "```" then
    pyStrip (String.mk ((t.data.drop 7).take (t.data.length - 10)))
  else t

/-- `get_adb_commands_from_gemini`, observing only the reply handling: the
function always returns a Python dict — the parsed JSON object on success
and an `{"error": ..., ...}` dict on every failure path (lines 112-131). -/
def get_adb_commands_from_gemini (api : ApiResult) : List (String × String) :=
  match api with
  | .transportError e =>
      [("error", "Error communicating with Gemini API: " ++ e)]
  | .unexpectedError e =>
      [("error", "An unexpected error occurred: " ++ e)]
  | .noContent raw =>
      [("error", "No content generated by Gemini. Check API response structure."),
       ("response", raw)]
  | .text body raw =>
      let json_text := stripFence body
      match jsonParse json_text with
      | some d => d
      | none =>
          [("error", "Gemini returned invalid JSON: " ++ json_text),
           ("raw_response", raw)]

/-! ## Control loop: `AutomationWorker.run` (lines 261-365)

One `StepEnv` per step abstracts the external world for that iteration:
the screenshot capture result, the decision-service exchange, the
subprocess oracle for the executed command, and whether a GUI stop request
had set `_is_running = False` by each cooperative
checkpoints (the `while` condition at the top of the step, and the three
`if not self._is_running: break` checks after capture, after the Gemini
call, and after command execution). -/

/-- External inputs and stop-flag observations for one loop iteration. -/
structure StepEnv where
  /-- `_is_running` is `False` at the `while` condition (line 280). -/
  stopBeforeStep : Bool
  /-- result of `capture_and_encode_screenshot` (line 285): the base64
  string, or `none` on failure. -/
  captureResult : Option String
  /-- `_is_running` is `False` at the post-capture check (line 290). -/
  stopAfterCapture : Bool
  /-- the decision-service exchange for this step (line 303). -/
  apiResult : ApiResult
  /-- `_is_running` is `False` at the post-decide check (line 305). -/
  stopAfterDecide : Bool
  /-- subprocess oracle backing `execute_adb_command` (line 335). -/
  proc : List String → ProcResult
  /-- `_is_running` is `False` at the post-execute check (line 337). -/
  stopAfterExecute : Bool

/-- Observable calls the loop makes to its collaborators. -/
inductive Event where
  /-- a call to `capture_and_encode_screenshot`. -/
  | capture
  /-- a call to `get_adb_commands_from_gemini`. -/
  | decide
  /-- a call to `execute_adb_command`. -/
  | execute
deriving DecidableEq, Repr

/-- How a run ended, one constructor per exit path of `run` (the
spec-level names: `COMPLETE`, `CANCELLED`, `FATAL_ERROR`,
`STEP_LIMIT_REACHED` group these via the predicates below). -/
inductive Outcome where
  /-- `while` condition found `_is_running` false (line 280). -/
  | CANCELLED_BEFORE_STEP
  /-- break at line 290, after capture returned. -/
  | CANCELLED_AFTER_CAPTURE
  /-- break at line 305, after the Gemini call returned. -/
  | CANCELLED_AFTER_DECIDE
  /-- break at line 337, after command execution returned. -/
  | CANCELLED_AFTER_EXECUTE
  /-- screenshot capture failed (lines 294-299). -/
  | FATAL_CAPTURE
  /-- the Gemini reply dict carries an `error` key (lines 309-315). -/
  | FATAL_API
  /-- empty command with `status == "done"` (lines 324-331). -/
  | DONE_NO_COMMAND
  /-- empty command without `status == "done"` (lines 324-331). -/
  | FATAL_NO_COMMAND
  /-- `execute_adb_command` returned `False` (lines 341-346). -/
  | FATAL_EXECUTE
  /-- `status == "done"` after a successful execution (lines 351-355). -/
  | COMPLETE
  /-- the `while` bound `current_step < max_steps` ran out with
  `_is_running` still true (lines 357-361). -/
  | STEP_LIMIT_REACHED
deriving DecidableEq, Repr

/-- Outcomes the spec maps to `FATAL_ERROR`. -/
def Outcome.isFatalError : Outcome → Bool
  | .FATAL_CAPTURE | .FATAL_API | .FATAL_NO_COMMAND | .FATAL_EXECUTE => true
  | _ => false

/-- Outcomes the spec maps to `CANCELLED`. -/
def Outcome.isCancelled : Outcome → Bool
  | .CANCELLED_BEFORE_STEP | .CANCELLED_AFTER_CAPTURE
  | .CANCELLED_AFTER_DECIDE | .CANCELLED_AFTER_EXECUTE => true
  | _ => false

/-- Outcomes where the run ended because the task was reported done
(`COMPLETE`, including the no-final-command variant of lines 326-327). -/
def Outcome.isCompleted : Outcome → Bool
  | .COMPLETE | .DONE_NO_COMMAND => true
  | _ => false

/-- What a finished run exposes: the exit path, the final value of
`current_step`, and the chronological collaborator calls. -/
structure RunResult where
  outcome : Outcome
  steps : Nat
  events : List Event
deriving DecidableEq, Repr

/-- The body of one iteration after the `while` condition passed:
either a `halt` (some `break` fired, ending the run with the given
outcome after the listed calls) or a `next` (fall through to the next
iteration).  The branch order mirrors lines 284-355 exactly; in
particular each stop-flag check precedes the failure check that follows
it in the source. -/
inductive StepOut where
  | halt (o : Outcome) (evs : List Event)
  | next (evs : List Event)

/-- One iteration of the `while` body (lines 282-355). -/
def stepRun (e : StepEnv) : StepOut :=
  if e.stopAfterCapture then .halt .CANCELLED_AFTER_CAPTURE [.capture]
  else
    match e.captureResult with
    | none => .halt .FATAL_CAPTURE [.capture]
    | some _ =>
        let reply := get_adb_commands_from_gemini e.apiResult
        if e.stopAfterDecide then .halt .CANCELLED_AFTER_DECIDE [.capture, .decide]
        else if dictHasKey reply "error" then .halt .FATAL_API [.capture, .decide]
        else
          match dictGet reply "command" with
          | none =>
              if dictGet reply "status" = some "done" then
                .halt .DONE_NO_COMMAND [.capture, .decide]
              else
                .halt .FATAL_NO_COMMAND [.capture, .decide]
          | some cmd =>
              if cmd = "" then
                if dictGet reply "status" = some "done" then
                  .halt .DONE_NO_COMMAND [.capture, .decide]
                else
                  .halt .FATAL_NO_COMMAND [.capture, .decide]
              else
                if e.stopAfterExecute then
                  .halt .CANCELLED_AFTER_EXECUTE [.capture, .decide, .execute]
                else if execute_adb_command e.proc cmd = false then
                  .halt .FATAL_EXECUTE [.capture, .decide, .execute]
                else if dictGet reply "status" = some "done" then
                  .halt .COMPLETE [.capture, .decide, .execute]
                else
                  .next [.capture, .decide, .execute]

/-- The `while` loop of `run`, counting down the remaining iterations
allowed by `current_step < max_steps` (`rem = max_steps - cur`).  At
`rem = 0` the loop exits; the post-loop `if self._is_running` (line 357)
distinguishes the step-limit outcome from a cancellation that falsified
the `while` condition. -/
def runAux (env : Nat → StepEnv) : Nat → Nat → RunResult
  | 0, cur =>
      if (env cur).stopBeforeStep then ⟨.CANCELLED_BEFORE_STEP, cur, []⟩
      else ⟨.STEP_LIMIT_REACHED, cur, []⟩
  | rem + 1, cur =>
      if (env cur).stopBeforeStep then ⟨.CANCELLED_BEFORE_STEP, cur, []⟩
      else
        match stepRun (env cur) with
        | .halt o evs => ⟨o, cur + 1, evs⟩
        | .next evs =>
            let r := runAux env rem (cur + 1)
            ⟨r.outcome, r.steps, evs ++ r.events⟩

/-- `max_steps = 20` (line 277). -/
def max_steps : Nat := 20

/-- `AutomationWorker.run`: `current_step = 0`, at most `max_steps`
iterations (lines 276-365). -/
def AutomationWorker_run (env : Nat → StepEnv) : RunResult :=
  runAux env max_steps 0

/-! ## Canonical reply rendering

To quantify over `a reply body containing valid JSON with the required
keys`, replies are rendered canonically: a flat object whose members are
the given key/value pairs, values arbitrary `jsonSafe` strings.
`jsonSafe` restricts a string to characters that JSON string literals
carry verbatim (no quote, no backslash, no control characters), the
fragment on which `jsonParse` coincides with `json.loads`. -/

/-- Characters a JSON string literal carries verbatim. -/
def jsonSafeChar (c : Char) : Bool :=
  !(c = '"') && !(c = '\\') && decide (32 ≤ c.toNat)

/-- Strings representable verbatim inside a JSON string literal. -/
def jsonSafe (s : String) : Prop :=
  ∀ c ∈ s.data, jsonSafeChar c = true

instance (s : String) : Decidable (jsonSafe s) := by
  unfold jsonSafe; infer_instance

/-- Render one `"key": "value"` member. -/
def renderMember (k v : String) : List Char :=
  '"' :: k.data ++ '"' :: ':' :: '"' :: v.data ++ ['"']

/-- Render a comma-separated member list. -/
def renderMembers : List (String × String) → List Char
  | [] => []
  | [(k, v)] => renderMember k v
  | (k, v) :: kvs => renderMember k v ++ ',' :: renderMembers kvs

/-- Render a flat JSON object with the given members. -/
def renderObj (kvs : List (String × String)) : String :=
  String.mk ('\x7b' :: renderMembers kvs ++ ['\x7d'])

/-- Wrap a reply body in the markdown fence the service is prompted to
emit: ```` ```json ```` above, ` ``` ` below. -/
def fenceWrap (s : String) : String :=
  "```json\n" ++ s ++ "\n```"

/-! ## Concrete fixtures

Reply bodies and step environments used to witness the theorems on
explicit inputs. -/

/-- A well-formed `continue` reply body. -/
def okBody : String :=
  "\x7b\"command\": \"input tap 1 2\", \"status\": \"continue\", \"reason\": \"r\"\x7d"

/-- A well-formed `done` reply body (the end-to-end scenario of the spec). -/
def doneBody : String :=
  "\x7b\"command\": \"am start -n com.android.settings/.Settings\", \"status\": \"done\", \"reason\": \"opened settings\"\x7d"

/-- A valid JSON reply body missing the required `status` key. -/
def noStatusBody : String :=
  "\x7b\"command\": \"input tap 100 200\", \"reason\": \"tap\"\x7d"

/-- Valid JSON with all required keys, wrapped in a markdown fence with no
language tag. -/
def plainFenceBody : String :=
  "```\n\x7b\"command\": \"c\", \"status\": \"done\", \"reason\": \"r\"\x7d\n```"

/-- A reply with an empty `command` and `status` `continue`. -/
def emptyCmdBody : String :=
  "\x7b\"command\": \"\", \"status\": \"continue\", \"reason\": \"stuck\"\x7d"

/-- A step where everything works and the service says `continue`. -/
def stepContinue : StepEnv :=
  ⟨false, some "img", false, .text okBody "", false, fun _ => .success, false⟩

/-- Every step succeeds and continues: the run must hit the step bound. -/
def envContinue : Nat → StepEnv := fun _ => stepContinue

/-- First step returns `done` with a command; all collaborators succeed. -/
def envDone : Nat → StepEnv := fun n =>
  if n = 0 then ⟨false, some "img", false, .text doneBody "", false, fun _ => .success, false⟩
  else stepContinue

/-- Screenshot capture fails at once. -/
def envCaptureFail : Nat → StepEnv := fun _ =>
  ⟨false, none, false, .text okBody "", false, fun _ => .success, false⟩

/-- The service replies with an empty command and `continue`. -/
def envEmptyCmd : Nat → StepEnv := fun _ =>
  ⟨false, some "img", false, .text emptyCmdBody "", false, fun _ => .success, false⟩

/-- Step 1 gets a reply with no `status` key; step 2 fails its capture, so
any event after the first three shows the loop survived the reply. -/
def envMissingStatus : Nat → StepEnv := fun n =>
  if n = 0 then ⟨false, some "img", false, .text noStatusBody "", false, fun _ => .success, false⟩
  else ⟨false, none, false, .text okBody "", false, fun _ => .success, false⟩

/-- Like `envMissingStatus` but with the reply rendered by `renderObj`. -/
def envMissingStatusR : Nat → StepEnv := fun n =>
  if n = 0 then
    ⟨false, some "img", false,
     .text (renderObj [("command", "input tap 100 200"), ("reason", "tap")]) "",
     false, fun _ => .success, false⟩
  else ⟨false, none, false, .text okBody "", false, fun _ => .success, false⟩

/-- Stop requested before the step starts. -/
def envStopTop : Nat → StepEnv := fun _ =>
  ⟨true, some "img", false, .text okBody "", false, fun _ => .success, false⟩

/-- Stop requested while the capture call was in flight. -/
def envStopAfterCapture : Nat → StepEnv := fun _ =>
  ⟨false, some "img", true, .text okBody "", false, fun _ => .success, false⟩

/-- Stop requested while the decision call was in flight. -/
def envStopAfterDecide : Nat → StepEnv := fun _ =>
  ⟨false, some "img", false, .text okBody "", true, fun _ => .success, false⟩

/-- Stop requested while the command execution was in flight. -/
def envStopAfterExecute : Nat → StepEnv := fun _ =>
  ⟨false, some "img", false, .text okBody "", false, fun _ => .success, true⟩

/-- Steps 1 and 2 succeed; the step-3 command execution fails. -/
def envExecFail : Nat → StepEnv := fun n =>
  if n < 2 then stepContinue
  else ⟨false, some "img", false, .text okBody "", false, fun _ => .calledProcessError, false⟩

/-! ## Helper lemmas -/

theorem pySplitAux_all_ws (l : List Char) (h : ∀ c ∈ l, isPyWs c = true) :
    pySplitAux l [] = [] := by
  induction l with
  | nil => rfl
  | cons c cs ih =>
      have hc : isPyWs c = true := h c (by simp)
      simp only [pySplitAux, hc, if_true, List.isEmpty_nil]
      exact ih (fun d hd => h d (by simp [hd]))

/-! ## Claims C9, C10, C8: the device bridge -/

/-- Claim C9: a command with a leading token is dispatched in exactly one
of two forms keyed by that token: the six direct-bridge verbs go to `adb`
directly, everything else through `adb shell`; the two forms are always
distinct. -/
theorem dispatch_two_forms (command tok : String) (rest : List String)
    (h : pySplit command = tok :: rest) :
    adbDispatch command =
      some (if tok ∈ directVerbs then "adb" :: pySplit command
            else "adb" :: "shell" :: pySplit command) ∧
    "adb" :: pySplit command ≠ "adb" :: "shell" :: pySplit command := by
  constructor
  · simp only [adbDispatch, h]
    split <;> simp [h]
  · intro heq
    simp only [List.cons.injEq] at heq
    exact List.cons_ne_self _ _ heq.2.symm

theorem dispatch_two_forms_witness :
    (adbDispatch "input tap 100 200" =
      some (if "input" ∈ directVerbs then "adb" :: pySplit "input tap 100 200"
            else "adb" :: "shell" :: pySplit "input tap 100 200")) ∧
    "adb" :: pySplit "input tap 100 200" ≠
      "adb" :: "shell" :: pySplit "input tap 100 200" :=
  dispatch_two_forms "input tap 100 200" "input" ["tap", "100", "200"] (by decide)

/-- Claim C10: an empty or whitespace-only command is rejected before any
dispatch: no argument vector is built (so no subprocess runs, whatever the
oracle would do) and the function returns `false`. -/
theorem blank_command_returns_false (proc : List String → ProcResult) (command : String)
    (h : ∀ c ∈ command.data, isPyWs c = true) :
    adbDispatch command = none ∧ execute_adb_command proc command = false := by
  have hs : pySplit command = [] := pySplitAux_all_ws command.data h
  refine ⟨?_, ?_⟩
  · simp [adbDispatch, hs]
  · simp [execute_adb_command, adbDispatch, hs]

theorem blank_command_returns_false_witness :
    adbDispatch "   " = none ∧
    execute_adb_command (fun _ => ProcResult.success) "   " = false :=
  blank_command_returns_false (fun _ => ProcResult.success) "   " (by decide)

/-- Claim C8: `execute_adb_command` returns `true` exactly when the
dispatched subprocess reports success (every error outcome, including a
missing `adb` binary or any other exception, yields `false`); and when the
loop executes a command at step `n` and it fails, the run ends immediately
in the fatal-execute outcome with `step_count = n` and no further events. -/
theorem execute_reports_process_success (proc : List String → ProcResult) (command : String)
    (env : Nat → StepEnv) (rem cur : Nat) (shot cmd : String) :
    (execute_adb_command proc command = true ↔
      ∃ full_cmd, adbDispatch command = some full_cmd ∧ proc full_cmd = .success) ∧
    ((env cur).stopBeforeStep = false → (env cur).stopAfterCapture = false →
     (env cur).captureResult = some shot → (env cur).stopAfterDecide = false →
     dictHasKey (get_adb_commands_from_gemini (env cur).apiResult) "error" = false →
     dictGet (get_adb_commands_from_gemini (env cur).apiResult) "command" = some cmd →
     cmd ≠ "" →
     (env cur).stopAfterExecute = false →
     execute_adb_command (env cur).proc cmd = false →
     runAux env (rem + 1) cur =
       ⟨.FATAL_EXECUTE, cur + 1, [.capture, .decide, .execute]⟩) := by
  constructor
  · unfold execute_adb_command
    cases hd : adbDispatch command with
    | none => simp
    | some l =>
        cases hp : proc l with
        | success => simp [hp]
        | calledProcessError => simp [hp]
        | fileNotFound => simp [hp]
        | otherError => simp [hp]
  · intro h0 h1 hcap h2 herr hcmd hne h3 hexec
    simp [runAux, stepRun, h0, h1, hcap, h2, herr, hcmd, hne, h3, hexec]

theorem execute_reports_process_success_witness :
    (execute_adb_command (fun _ => ProcResult.calledProcessError) "input tap 1 2" = true ↔
      ∃ full_cmd, adbDispatch "input tap 1 2" = some full_cmd ∧
        (fun _ => ProcResult.calledProcessError) full_cmd = .success) ∧
    runAux envExecFail 18 2 =
      ⟨.FATAL_EXECUTE, 3, [.capture, .decide, .execute]⟩ :=
  ⟨(execute_reports_process_success (fun _ => ProcResult.calledProcessError) "input tap 1 2"
      envExecFail 17 2 "img" "input tap 1 2").1,
   (execute_reports_process_success (fun _ => ProcResult.calledProcessError) "input tap 1 2"
      envExecFail 17 2 "img" "input tap 1 2").2
     rfl rfl rfl rfl (by decide) (by decide) (by decide) rfl (by decide)⟩

/-! ## Claims C2, C3, C4, C7: per-step loop behavior -/

/-- Claim C3: when the capture at a step fails (and no stop request was
observed first), the run ends immediately in the fatal-capture outcome:
the decision client is not invoked for that step and no further step is
attempted. -/
theorem capture_failure_fatal (env : Nat → StepEnv) (rem cur : Nat)
    (h0 : (env cur).stopBeforeStep = false)
    (h1 : (env cur).stopAfterCapture = false)
    (hcap : (env cur).captureResult = none) :
    runAux env (rem + 1) cur = ⟨.FATAL_CAPTURE, cur + 1, [.capture]⟩ ∧
    Event.decide ∉ (runAux env (rem + 1) cur).events ∧
    Outcome.FATAL_CAPTURE.isFatalError = true := by
  have h : runAux env (rem + 1) cur = ⟨.FATAL_CAPTURE, cur + 1, [.capture]⟩ := by
    simp [runAux, stepRun, h0, h1, hcap]
  refine ⟨h, ?_, rfl⟩
  rw [h]
  simp

theorem capture_failure_fatal_witness :
    runAux envCaptureFail 20 0 = ⟨.FATAL_CAPTURE, 1, [.capture]⟩ ∧
    Event.decide ∉ (runAux envCaptureFail 20 0).events ∧
    Outcome.FATAL_CAPTURE.isFatalError = true :=
  capture_failure_fatal envCaptureFail 19 0 rfl rfl rfl

/-- Claim C4: a reply carrying an empty (or absent) command together with
a `continue` status ends the run immediately in the anomalous-decision
fatal outcome, and `execute_adb_command` is not called for that step. -/
theorem empty_action_continue_fatal (env : Nat → StepEnv) (rem cur : Nat) (shot : String)
    (h0 : (env cur).stopBeforeStep = false)
    (h1 : (env cur).stopAfterCapture = false)
    (hcap : (env cur).captureResult = some shot)
    (h2 : (env cur).stopAfterDecide = false)
    (herr : dictHasKey (get_adb_commands_from_gemini (env cur).apiResult) "error" = false)
    (hcmd : dictGet (get_adb_commands_from_gemini (env cur).apiResult) "command" = none ∨
            dictGet (get_adb_commands_from_gemini (env cur).apiResult) "command" = some "")
    (hstat : dictGet (get_adb_commands_from_gemini (env cur).apiResult) "status" =
              some "continue") :
    runAux env (rem + 1) cur = ⟨.FATAL_NO_COMMAND, cur + 1, [.capture, .decide]⟩ ∧
    Event.execute ∉ (runAux env (rem + 1) cur).events ∧
    Outcome.FATAL_NO_COMMAND.isFatalError = true := by
  have h : runAux env (rem + 1) cur = ⟨.FATAL_NO_COMMAND, cur + 1, [.capture, .decide]⟩ := by
    rcases hcmd with hcmd | hcmd <;>
      simp [runAux, stepRun, h0, h1, hcap, h2, herr, hcmd, hstat]
  refine ⟨h, ?_, rfl⟩
  rw [h]
  simp

theorem empty_action_continue_fatal_witness :
    runAux envEmptyCmd 20 0 = ⟨.FATAL_NO_COMMAND, 1, [.capture, .decide]⟩ ∧
    Event.execute ∉ (runAux envEmptyCmd 20 0).events ∧
    Outcome.FATAL_NO_COMMAND.isFatalError = true :=
  empty_action_continue_fatal envEmptyCmd 19 0 "img" rfl rfl rfl rfl
    (by decide) (Or.inr (by decide)) (by decide)

/-- Claim C2: when the reply at a step says `done` with a non-empty
command, the command executes successfully and no stop request intervenes,
the run ends in `COMPLETE` at that step, after exactly the capture, decide
and execute calls of that step — in particular no later capture occurs. -/
theorem done_decision_completes (env : Nat → StepEnv) (rem cur : Nat) (shot cmd : String)
    (h0 : (env cur).stopBeforeStep = false)
    (h1 : (env cur).stopAfterCapture = false)
    (hcap : (env cur).captureResult = some shot)
    (h2 : (env cur).stopAfterDecide = false)
    (herr : dictHasKey (get_adb_commands_from_gemini (env cur).apiResult) "error" = false)
    (hcmd : dictGet (get_adb_commands_from_gemini (env cur).apiResult) "command" = some cmd)
    (hne : cmd ≠ "")
    (hdone : dictGet (get_adb_commands_from_gemini (env cur).apiResult) "status" = some "done")
    (h3 : (env cur).stopAfterExecute = false)
    (hexec : execute_adb_command (env cur).proc cmd = true) :
    runAux env (rem + 1) cur = ⟨.COMPLETE, cur + 1, [.capture, .decide, .execute]⟩ := by
  simp [runAux, stepRun, h0, h1, hcap, h2, herr, hcmd, hne, hdone, h3, hexec]

theorem done_decision_completes_witness :
    runAux envDone 20 0 = ⟨.COMPLETE, 1, [.capture, .decide, .execute]⟩ :=
  done_decision_completes envDone 19 0 "img" "am start -n com.android.settings/.Settings"
    rfl rfl rfl rfl (by decide) (by decide) (by decide) (by decide) rfl (by decide)

/-- Claim C7: the stop flag is observed exactly at the four checkpoints.
A stop pending at the top of a step cancels before any capture; a stop
observed after capture, after decide or after execute cancels only once
that already-started call has returned, and nothing later in the step
runs. -/
theorem stop_flag_checkpoints (env : Nat → StepEnv) (rem cur : Nat) :
    ((env cur).stopBeforeStep = true →
      runAux env (rem + 1) cur = ⟨.CANCELLED_BEFORE_STEP, cur, []⟩) ∧
    ((env cur).stopBeforeStep = false → (env cur).stopAfterCapture = true →
      runAux env (rem + 1) cur = ⟨.CANCELLED_AFTER_CAPTURE, cur + 1, [.capture]⟩) ∧
    (∀ shot, (env cur).stopBeforeStep = false → (env cur).stopAfterCapture = false →
      (env cur).captureResult = some shot → (env cur).stopAfterDecide = true →
      runAux env (rem + 1) cur = ⟨.CANCELLED_AFTER_DECIDE, cur + 1, [.capture, .decide]⟩) ∧
    (∀ shot cmd, (env cur).stopBeforeStep = false → (env cur).stopAfterCapture = false →
      (env cur).captureResult = some shot → (env cur).stopAfterDecide = false →
      dictHasKey (get_adb_commands_from_gemini (env cur).apiResult) "error" = false →
      dictGet (get_adb_commands_from_gemini (env cur).apiResult) "command" = some cmd →
      cmd ≠ "" →
      (env cur).stopAfterExecute = true →
      runAux env (rem + 1) cur =
        ⟨.CANCELLED_AFTER_EXECUTE, cur + 1, [.capture, .decide, .execute]⟩) := by
  refine ⟨?_, ?_, ?_, ?_⟩
  · intro h0
    simp [runAux, h0]
  · intro h0 h1
    simp [runAux, stepRun, h0, h1]
  · intro shot h0 h1 hcap h2
    simp [runAux, stepRun, h0, h1, hcap, h2]
  · intro shot cmd h0 h1 hcap h2 herr hcmd hne h3
    simp [runAux, stepRun, h0, h1, hcap, h2, herr, hcmd, hne, h3]

theorem stop_flag_checkpoints_witness :
    runAux envStopTop 20 0 = ⟨.CANCELLED_BEFORE_STEP, 0, []⟩ ∧
    runAux envStopAfterCapture 20 0 = ⟨.CANCELLED_AFTER_CAPTURE, 1, [.capture]⟩ ∧
    runAux envStopAfterDecide 20 0 =
      ⟨.CANCELLED_AFTER_DECIDE, 1, [.capture, .decide]⟩ ∧
    runAux envStopAfterExecute 20 0 =
      ⟨.CANCELLED_AFTER_EXECUTE, 1, [.capture, .decide, .execute]⟩ :=
  ⟨(stop_flag_checkpoints envStopTop 19 0).1 rfl,
   (stop_flag_checkpoints envStopAfterCapture 19 0).2.1 rfl rfl,
   (stop_flag_checkpoints envStopAfterDecide 19 0).2.2.1 "img" rfl rfl rfl rfl,
   (stop_flag_checkpoints envStopAfterExecute 19 0).2.2.2 "img" "input tap 1 2"
     rfl rfl rfl rfl (by decide) (by decide) (by decide) rfl⟩

/-! ## Claim C1: the step bound -/

theorem stepRun_outcome_ok (e : StepEnv) :
    (match stepRun e with
     | .halt o _ => o ≠ .STEP_LIMIT_REACHED ∧ o ≠ .CANCELLED_BEFORE_STEP
     | .next _ => True) := by
  unfold stepRun
  cases h1 : e.stopAfterCapture
  · cases h2 : e.captureResult with
    | none => simp [h1, h2]
    | some shot =>
        cases h3 : e.stopAfterDecide
        · cases h4 : dictHasKey (get_adb_commands_from_gemini e.apiResult) "error"
          · cases h5 : dictGet (get_adb_commands_from_gemini e.apiResult) "command" with
            | none =>
                by_cases h7 : dictGet (get_adb_commands_from_gemini e.apiResult) "status" =
                    some "done" <;>
                  simp [h1, h2, h3, h4, h5, h7]
            | some cmd =>
                by_cases h6 : cmd = ""
                · by_cases h7 : dictGet (get_adb_commands_from_gemini e.apiResult) "status" =
                      some "done" <;>
                    simp [h1, h2, h3, h4, h5, h6, h7]
                · cases h8 : e.stopAfterExecute
                  · cases h9 : execute_adb_command e.proc cmd
                    · simp [h1, h2, h3, h4, h5, h6, h8, h9]
                    · by_cases h7 : dictGet (get_adb_commands_from_gemini e.apiResult) "status" =
                          some "done" <;>
                        simp [h1, h2, h3, h4, h5, h6, h8, h9, h7]
                  · simp [h1, h2, h3, h4, h5, h6, h8]
          · simp [h1, h2, h3, h4]
        · simp [h1, h2, h3]
  · simp [h1]

theorem stepRun_halt_not_limit (e : StepEnv) (o : Outcome) (evs : List Event)
    (h : stepRun e = .halt o evs) : o ≠ .STEP_LIMIT_REACHED := by
  have hok := stepRun_outcome_ok e
  rw [h] at hok
  exact hok.1

theorem runAux_steps_le (env : Nat → StepEnv) :
    ∀ rem cur, (runAux env rem cur).steps ≤ cur + rem := by
  intro rem
  induction rem with
  | zero =>
      intro cur
      simp only [runAux]
      by_cases hs : (env cur).stopBeforeStep = true
      · rw [if_pos hs]
        show cur ≤ cur + 0
        omega
      · rw [if_neg hs]
        show cur ≤ cur + 0
        omega
  | succ n ih =>
      intro cur
      simp only [runAux]
      by_cases hs : (env cur).stopBeforeStep = true
      · rw [if_pos hs]
        show cur ≤ cur + (n + 1)
        omega
      · rw [if_neg hs]
        cases heq : stepRun (env cur) with
        | halt o evs =>
            show cur + 1 ≤ cur + (n + 1)
            omega
        | next evs =>
            show (runAux env n (cur + 1)).steps ≤ cur + (n + 1)
            have := ih (cur + 1)
            omega

theorem runAux_limit_steps (env : Nat → StepEnv) :
    ∀ rem cur, (runAux env rem cur).outcome = .STEP_LIMIT_REACHED →
      (runAux env rem cur).steps = cur + rem := by
  intro rem
  induction rem with
  | zero =>
      intro cur h
      simp only [runAux] at h ⊢
      by_cases hs : (env cur).stopBeforeStep = true
      · rw [if_pos hs] at h
        exact absurd h (by simp)
      · rw [if_neg hs]
        show cur = cur + 0
        omega
  | succ n ih =>
      intro cur h
      simp only [runAux] at h ⊢
      by_cases hs : (env cur).stopBeforeStep = true
      · rw [if_pos hs] at h
        exact absurd h (by simp)
      · rw [if_neg hs] at h ⊢
        cases heq : stepRun (env cur) with
        | halt o evs =>
            rw [heq] at h
            exact absurd h (stepRun_halt_not_limit _ _ _ heq)
        | next evs =>
            rw [heq] at h
            have hnext := ih (cur + 1) h
            show (runAux env n (cur + 1)).steps = cur + (n + 1)
            omega

/-- Claim C1: every run performs at most `max_steps = 20` iterations;
reaching the step-limit outcome means exactly `max_steps` iterations ran;
and a run that neither completed, nor was cancelled, nor failed, ended
with the step-limit outcome. -/
theorem run_step_limit_bound (env : Nat → StepEnv) :
    (AutomationWorker_run env).steps ≤ max_steps ∧
    ((AutomationWorker_run env).outcome = .STEP_LIMIT_REACHED →
      (AutomationWorker_run env).steps = max_steps) ∧
    ((AutomationWorker_run env).outcome.isCompleted = false →
     (AutomationWorker_run env).outcome.isCancelled = false →
     (AutomationWorker_run env).outcome.isFatalError = false →
      (AutomationWorker_run env).outcome = .STEP_LIMIT_REACHED) := by
  refine ⟨?_, ?_, ?_⟩
  · simpa using runAux_steps_le env max_steps 0
  · intro h
    simpa using runAux_limit_steps env max_steps 0 h
  · generalize (AutomationWorker_run env).outcome = o
    intro h1 h2 h3
    cases o <;>
      simp_all [Outcome.isCompleted, Outcome.isCancelled, Outcome.isFatalError]

theorem run_step_limit_bound_witness :
    (AutomationWorker_run envContinue).steps ≤ max_steps ∧
    (AutomationWorker_run envContinue).steps = max_steps ∧
    (AutomationWorker_run envContinue).outcome = .STEP_LIMIT_REACHED :=
  ⟨(run_step_limit_bound envContinue).1,
   (run_step_limit_bound envContinue).2.1 (by decide),
   (run_step_limit_bound envContinue).2.2 (by decide) (by decide) (by decide)⟩

/-! ## Parsing lemmas for claims C5 and C6 -/

theorem data_append (s t : String) : (s ++ t).data = s.data ++ t.data := rfl

theorem mk_data (s : String) : String.mk s.data = s := rfl

theorem takeWhile_append_cons (p : Char → Bool) (l : List Char) (x : Char) (r : List Char)
    (hl : ∀ c ∈ l, p c = true) (hx : p x = false) :
    (l ++ x :: r).takeWhile p = l ∧ (l ++ x :: r).dropWhile p = x :: r := by
  induction l with
  | nil => simp [List.takeWhile, List.dropWhile, hx]
  | cons a as ih =>
      have ha : p a = true := hl a (by simp)
      have ih2 := ih (fun c hc => hl c (by simp [hc]))
      simp [List.takeWhile, List.dropWhile, ha, ih2.1, ih2.2]

theorem dropWhile_cons_of_not (p : Char → Bool) (c : Char) (l : List Char)
    (h : p c = false) : List.dropWhile p (c :: l) = c :: l := by
  simp [List.dropWhile, h]

theorem skipWs_cons_of_not_ws (c : Char) (l : List Char) (h : isPyWs c = false) :
    skipWs (c :: l) = c :: l := by
  simp [skipWs, h]

theorem jsonSafe_no_quote (s : String) (h : jsonSafe s) :
    ∀ c ∈ s.data, (!(c = '"')) = true := by
  intro c hc
  have hs := h c hc
  unfold jsonSafeChar at hs
  simp only [Bool.and_eq_true] at hs
  exact hs.1.1

theorem jsonString_render (s : String) (rest : List Char) (hs : jsonSafe s) :
    jsonString ('"' :: (s.data ++ '"' :: rest)) = some (s.data, rest) := by
  have h := takeWhile_append_cons (fun c => !(c = '"')) s.data '"' rest
    (jsonSafe_no_quote s hs) (by simp)
  simp [jsonString, h.1, h.2]

theorem jsonMembers_render_step (k v : String) (hk : jsonSafe k) (hv : jsonSafe v)
    (tail : List Char) (f : Nat) :
    jsonMembers (f + 1) (renderMember k v ++ tail) =
      (match skipWs tail with
       | ',' :: rest4 =>
           (match jsonMembers f rest4 with
            | some (kvs, rest5) => some ((k, v) :: kvs, rest5)
            | none => none)
       | rest5 => some ([(k, v)], rest5)) := by
  have hinput : renderMember k v ++ tail =
      '"' :: (k.data ++ '"' :: ':' :: '"' :: (v.data ++ '"' :: tail)) := by
    simp [renderMember]
  have hq : ∀ l, skipWs ('"' :: l) = '"' :: l :=
    fun l => skipWs_cons_of_not_ws _ l (by decide)
  have hco : ∀ l, skipWs (':' :: l) = ':' :: l :=
    fun l => skipWs_cons_of_not_ws _ l (by decide)
  simp only [hinput, jsonMembers, hq, hco, jsonString_render k _ hk,
    jsonString_render v tail hv]

theorem renderMembers_length (kvs : List (String × String)) :
    kvs.length ≤ (renderMembers kvs).length := by
  induction kvs with
  | nil => simp [renderMembers]
  | cons kv kvs ih =>
      obtain ⟨k, v⟩ := kv
      cases kvs with
      | nil =>
          simp [renderMembers, renderMember]
      | cons kv2 rest =>
          simp only [renderMembers, renderMember, List.length_append, List.length_cons,
            List.cons_append] at *
          omega

theorem jsonMembers_render (kvs : List (String × String)) :
    ∀ fuel : Nat, kvs ≠ [] → (∀ kv ∈ kvs, jsonSafe kv.1 ∧ jsonSafe kv.2) →
      kvs.length ≤ fuel →
      jsonMembers fuel (renderMembers kvs ++ ['\x7d']) = some (kvs, ['\x7d']) := by
  induction kvs with
  | nil => intro fuel hne _ _; exact absurd rfl hne
  | cons kv kvs ih =>
      intro fuel hne hsafe hlen
      obtain ⟨k, v⟩ := kv
      have hk : jsonSafe k := (hsafe (k, v) (by simp)).1
      have hv : jsonSafe v := (hsafe (k, v) (by simp)).2
      cases fuel with
      | zero => simp at hlen
      | succ f =>
          cases kvs with
          | nil =>
              rw [show renderMembers [(k, v)] = renderMember k v from rfl]
              rw [jsonMembers_render_step k v hk hv ['\x7d'] f]
              rw [skipWs_cons_of_not_ws '\x7d' _ (by decide)]
              simp
          | cons kv2 rest =>
              have hmem : renderMembers ((k, v) :: kv2 :: rest) ++ ['\x7d'] =
                  renderMember k v ++ (',' :: (renderMembers (kv2 :: rest) ++ ['\x7d'])) := by
                simp [renderMembers]
              rw [hmem, jsonMembers_render_step k v hk hv _ f]
              rw [skipWs_cons_of_not_ws ',' _ (by decide)]
              simp only [ih f (by simp) (fun x hx => hsafe x (by simp [hx]))
                (by simp only [List.length_cons] at hlen ⊢; omega)]

theorem renderMembers_starts_quote (kv : String × String) (kvs : List (String × String)) :
    ∃ t, renderMembers (kv :: kvs) = '"' :: t := by
  obtain ⟨k, v⟩ := kv
  cases kvs with
  | nil => exact ⟨_, rfl⟩
  | cons kv2 rest => exact ⟨_, rfl⟩

theorem jsonParse_renderObj (kvs : List (String × String)) (hne : kvs ≠ [])
    (hsafe : ∀ kv ∈ kvs, jsonSafe kv.1 ∧ jsonSafe kv.2) :
    jsonParse (renderObj kvs) = some kvs := by
  obtain ⟨kv, kvs2, rfl⟩ : ∃ a l, kvs = a :: l := by
    cases kvs with
    | nil => exact absurd rfl hne
    | cons a l => exact ⟨a, l, rfl⟩
  obtain ⟨t, ht⟩ := renderMembers_starts_quote kv kvs2
  have hsq : ∀ l, skipWs ('"' :: l) = '"' :: l :=
    fun l => skipWs_cons_of_not_ws _ l (by decide)
  have hsb : ∀ l, skipWs ('\x7d' :: l) = '\x7d' :: l :=
    fun l => skipWs_cons_of_not_ws _ l (by decide)
  have hdata : (renderObj (kv :: kvs2)).data =
      '\x7b' :: (renderMembers (kv :: kvs2) ++ ['\x7d']) := by
    simp [renderObj]
  have hlen : (kv :: kvs2).length ≤ (renderMembers (kv :: kvs2)).length + 1 + 1 := by
    have hr := renderMembers_length (kv :: kvs2)
    simp only [List.length_cons] at hr ⊢
    omega
  have hren := jsonMembers_render (kv :: kvs2)
      ((renderMembers (kv :: kvs2)).length + 1 + 1) (by simp) hsafe hlen
  have hnil : skipWs ([] : List Char) = [] := rfl
  have hcs : skipWs (renderMembers (kv :: kvs2) ++ ['\x7d']) = '"' :: (t ++ ['\x7d']) := by
    rw [ht]
    simp only [List.cons_append]
    exact hsq _
  unfold jsonParse
  rw [hdata, skipWs_cons_of_not_ws '\x7b' _ (by decide)]
  simp [hcs, hren, hsb, hnil]

theorem dropWhile_cons_of_ws (p : Char → Bool) (c : Char) (l : List Char)
    (h : p c = true) : List.dropWhile p (c :: l) = List.dropWhile p l := by
  simp [List.dropWhile, h]

theorem pyStripData_keep (c d : Char) (m : List Char)
    (hc : isPyWs c = false) (hd : isPyWs d = false) :
    pyStripData (c :: (m ++ [d])) = c :: (m ++ [d]) := by
  unfold pyStripData
  rw [dropWhile_cons_of_not _ _ _ hc]
  have hrev : (c :: (m ++ [d])).reverse = d :: (m.reverse ++ [c]) := by simp
  rw [hrev, dropWhile_cons_of_not _ _ _ hd]
  simp

theorem pyStripData_nl (c d : Char) (m : List Char)
    (hc : isPyWs c = false) (hd : isPyWs d = false) :
    pyStripData ('\n' :: ((c :: (m ++ [d])) ++ ['\n'])) = c :: (m ++ [d]) := by
  unfold pyStripData
  rw [dropWhile_cons_of_ws _ _ _ (by decide)]
  rw [show (c :: (m ++ [d])) ++ ['\n'] = c :: ((m ++ [d]) ++ ['\n']) from by simp]
  rw [dropWhile_cons_of_not _ _ _ hc]
  have hrev : (c :: ((m ++ [d]) ++ ['\n'])).reverse = '\n' :: (d :: (m.reverse ++ [c])) := by
    simp
  rw [hrev, dropWhile_cons_of_ws _ _ _ (by decide), dropWhile_cons_of_not _ _ _ hd]
  simp

theorem stripFence_fenceWrap (m : List Char) :
    stripFence (fenceWrap (String.mk ('\x7b' :: (m ++ ['\x7d'])))) =
      String.mk ('\x7b' :: (m ++ ['\x7d'])) := by
  have h8 : "```json\n".data = ['`', '`', '`', 'j', 's', 'o', 'n', '\n'] := by decide
  have h7 : "```json".data = ['`', '`', '`', 'j', 's', 'o', 'n'] := by decide
  have h4 : "\n```".data = ['\n', '`', '`', '`'] := by decide
  have h3 : "```".data = ['`', '`', '`'] := by decide
  have hbd : (fenceWrap (String.mk ('\x7b' :: (m ++ ['\x7d'])))).data =
      ("```json\n".data ++ ('\x7b' :: (m ++ ['\x7d']))) ++ "\n```".data := rfl
  have hshape : ("```json\n".data ++ ('\x7b' :: (m ++ ['\x7d']))) ++ "\n```".data =
      '`' :: (('`' :: '`' :: 'j' :: 's' :: 'o' :: 'n' :: '\n' ::
        (('\x7b' :: (m ++ ['\x7d'])) ++ ['\n', '`', '`'])) ++ ['`']) := by
    rw [h8, h4]
    simp
  have hpre : '`' :: (('`' :: '`' :: 'j' :: 's' :: 'o' :: 'n' :: '\n' ::
        (('\x7b' :: (m ++ ['\x7d'])) ++ ['\n', '`', '`'])) ++ ['`']) =
      "```json".data ++ ('\n' :: (('\x7b' :: (m ++ ['\x7d'])) ++ ['\n', '`', '`', '`'])) := by
    rw [h7]
    simp
  have hstrip : pyStrip (fenceWrap (String.mk ('\x7b' :: (m ++ ['\x7d'])))) =
      String.mk ("```json".data ++ ('\n' :: (('\x7b' :: (m ++ ['\x7d'])) ++
        ['\n', '`', '`', '`']))) := by
    unfold pyStrip
    rw [hbd, hshape, pyStripData_keep _ _ _ (by decide) (by decide), hpre]
  unfold stripFence
  rw [hstrip]
  have hdata : (String.mk ("```json".data ++ ('\n' :: (('\x7b' :: (m ++ ['\x7d'])) ++
      ['\n', '`', '`', '`'])))).data =
      "```json".data ++ ('\n' :: (('\x7b' :: (m ++ ['\x7d'])) ++ ['\n', '`', '`', '`'])) := rfl
  have hstart : pyStartsWith (String.mk ("```json".data ++ ('\n' ::
      (('\x7b' :: (m ++ ['\x7d'])) ++ ['\n', '`', '`', '`'])))) "```json" = true := by
    unfold pyStartsWith
    rw [hdata]
    exact List.isPrefixOf_iff_prefix.mpr (List.prefix_append _ _)
  have hend : pyEndsWith (String.mk ("```json".data ++ ('\n' ::
      (('\x7b' :: (m ++ ['\x7d'])) ++ ['\n', '`', '`', '`'])))) "```" = true := by
    unfold pyEndsWith
    rw [hdata, h3]
    have hsplit : "```json".data ++ ('\n' :: (('\x7b' :: (m ++ ['\x7d'])) ++
        ['\n', '`', '`', '`'])) =
        ("```json".data ++ ('\n' :: (('\x7b' :: (m ++ ['\x7d'])) ++ ['\n']))) ++
          ['`', '`', '`'] := by
      simp
    rw [hsplit, List.reverse_append]
    exact List.isPrefixOf_iff_prefix.mpr
      (List.prefix_append ['`', '`', '`'].reverse _)
  simp only [hstart, hend, Bool.and_self, if_true]
  have hdrop : List.drop 7 ("```json".data ++ ('\n' :: (('\x7b' :: (m ++ ['\x7d'])) ++
      ['\n', '`', '`', '`']))) =
      '\n' :: (('\x7b' :: (m ++ ['\x7d'])) ++ ['\n', '`', '`', '`']) :=
    List.drop_left' (by rw [h7]; rfl)
  have hlen : ("```json".data ++ ('\n' :: (('\x7b' :: (m ++ ['\x7d'])) ++
      ['\n', '`', '`', '`']))).length - 10 =
      ('\n' :: ('\x7b' :: (m ++ ['\x7d']))).length + 1 := by
    rw [h7]
    simp only [List.length_append, List.length_cons, List.length_nil]
    omega
  have hsplit2 : '\n' :: (('\x7b' :: (m ++ ['\x7d'])) ++ ['\n', '`', '`', '`']) =
      ('\n' :: ('\x7b' :: (m ++ ['\x7d']))) ++ ['\n', '`', '`', '`'] := by
    simp
  rw [hdrop, hlen, hsplit2, List.take_append 1]
  have htake1 : List.take 1 ['\n', '`', '`', '`'] = ['\n'] := rfl
  rw [htake1]
  have hsh : ('\n' :: ('\x7b' :: (m ++ ['\x7d']))) ++ ['\n'] =
      '\n' :: (('\x7b' :: (m ++ ['\x7d'])) ++ ['\n']) := by simp
  rw [hsh]
  unfold pyStrip
  rw [show (String.mk ('\n' :: (('\x7b' :: (m ++ ['\x7d'])) ++ ['\n']))).data =
      '\n' :: (('\x7b' :: (m ++ ['\x7d'])) ++ ['\n']) from rfl]
  rw [pyStripData_nl _ _ _ (by decide) (by decide)]

theorem stripFence_renderObj (kvs : List (String × String)) :
    stripFence (renderObj kvs) = renderObj kvs := by
  have hdata : (renderObj kvs).data = '\x7b' :: (renderMembers kvs ++ ['\x7d']) := by
    simp [renderObj]
  have hstrip : pyStrip (renderObj kvs) = renderObj kvs := by
    unfold pyStrip
    rw [hdata, pyStripData_keep _ _ _ (by decide) (by decide), ← hdata, mk_data]
  have hstart : pyStartsWith (renderObj kvs) "```json" = false := by
    unfold pyStartsWith
    rw [hdata]
    rfl
  unfold stripFence
  rw [hstrip]
  simp [hstart]

theorem runAux_continue_step (env : Nat → StepEnv) (rem cur : Nat) (shot cmd : String)
    (h0 : (env cur).stopBeforeStep = false)
    (h1 : (env cur).stopAfterCapture = false)
    (hcap : (env cur).captureResult = some shot)
    (h2 : (env cur).stopAfterDecide = false)
    (herr : dictHasKey (get_adb_commands_from_gemini (env cur).apiResult) "error" = false)
    (hcmd : dictGet (get_adb_commands_from_gemini (env cur).apiResult) "command" = some cmd)
    (hne : cmd ≠ "")
    (hnd : dictGet (get_adb_commands_from_gemini (env cur).apiResult) "status" ≠ some "done")
    (h3 : (env cur).stopAfterExecute = false)
    (hexec : execute_adb_command (env cur).proc cmd = true) :
    runAux env (rem + 1) cur =
      ⟨(runAux env rem (cur + 1)).outcome, (runAux env rem (cur + 1)).steps,
       [.capture, .decide, .execute] ++ (runAux env rem (cur + 1)).events⟩ := by
  simp [runAux, stepRun, h0, h1, hcap, h2, herr, hcmd, hne, hnd, h3, hexec]

/-! ## Claims C6 and C5: reply parsing -/

/-- Claim C6, counterexample: `plainFenceBody` is a markdown fenced code
block wrapping valid JSON that carries all required keys, yet because its
fence has no `json` language tag the implementation does not strip it:
parsing fails and decide() returns an error dict instead of the embedded
values.  The last conjunct confirms the embedded object itself parses. -/
theorem plain_fence_not_stripped_counterexample :
    dictHasKey (get_adb_commands_from_gemini (.text plainFenceBody "raw")) "error" = true ∧
    dictGet (get_adb_commands_from_gemini (.text plainFenceBody "raw")) "command" = none ∧
    jsonParse (stripFence plainFenceBody) = none ∧
    jsonParse "\x7b\"command\": \"c\", \"status\": \"done\", \"reason\": \"r\"\x7d" =
      some [("command", "c"), ("status", "done"), ("reason", "r")] := by
  decide

/-- Claim C6, amended: for every reply body wrapped in a fence opened with
```` ```json ```` and closed with ` ``` `, whose content is valid JSON
with the required keys, decide() strips the fence, parsing succeeds, and
the returned dict carries exactly the embedded command/status/reason (and
no error marker). -/
theorem fenced_json_reply_roundtrip (cmd status reason raw : String)
    (hc : jsonSafe cmd) (hs : jsonSafe status) (hr : jsonSafe reason) :
    get_adb_commands_from_gemini (.text
        (fenceWrap (renderObj [("command", cmd), ("status", status), ("reason", reason)]))
        raw) =
      [("command", cmd), ("status", status), ("reason", reason)] ∧
    dictGet [("command", cmd), ("status", status), ("reason", reason)] "command" = some cmd ∧
    dictGet [("command", cmd), ("status", status), ("reason", reason)] "status" = some status ∧
    dictGet [("command", cmd), ("status", status), ("reason", reason)] "reason" = some reason ∧
    dictHasKey [("command", cmd), ("status", status), ("reason", reason)] "error" = false := by
  have hsafe : ∀ kv ∈ [("command", cmd), ("status", status), ("reason", reason)],
      jsonSafe kv.1 ∧ jsonSafe kv.2 := by
    intro kv hkv
    simp only [List.mem_cons, List.not_mem_nil, or_false] at hkv
    rcases hkv with rfl | rfl | rfl
    · exact ⟨(by decide : jsonSafe "command"), hc⟩
    · exact ⟨(by decide : jsonSafe "status"), hs⟩
    · exact ⟨(by decide : jsonSafe "reason"), hr⟩
  have hfence : stripFence (fenceWrap
      (renderObj [("command", cmd), ("status", status), ("reason", reason)])) =
      renderObj [("command", cmd), ("status", status), ("reason", reason)] := by
    rw [show renderObj [("command", cmd), ("status", status), ("reason", reason)] =
        String.mk ('\x7b' ::
          (renderMembers [("command", cmd), ("status", status), ("reason", reason)] ++
            ['\x7d'])) from rfl]
    exact stripFence_fenceWrap _
  refine ⟨?_, by simp [dictGet, List.find?], by simp [dictGet, List.find?],
    by simp [dictGet, List.find?], by simp [dictHasKey]⟩
  unfold get_adb_commands_from_gemini
  simp only [hfence, jsonParse_renderObj _ (by simp) hsafe]

theorem fenced_json_reply_roundtrip_witness :
    get_adb_commands_from_gemini (.text
        (fenceWrap (renderObj [("command", "c"), ("status", "done"), ("reason", "r")]))
        "") =
      [("command", "c"), ("status", "done"), ("reason", "r")] ∧
    dictGet [("command", "c"), ("status", "done"), ("reason", "r")] "command" = some "c" ∧
    dictGet [("command", "c"), ("status", "done"), ("reason", "r")] "status" = some "done" ∧
    dictGet [("command", "c"), ("status", "done"), ("reason", "r")] "reason" = some "r" ∧
    dictHasKey [("command", "c"), ("status", "done"), ("reason", "r")] "error" = false :=
  fenced_json_reply_roundtrip "c" "done" "r" "" (by decide) (by decide) (by decide)

/-- Claim C5, counterexample: a reply body that is valid JSON but lacks
the required `status` key parses successfully — decide() returns the dict
with no error marker and no status — and the loop, far from failing fast,
executes the command and performs another capture at the next step. -/
theorem missing_status_parses_counterexample :
    dictHasKey (get_adb_commands_from_gemini (.text noStatusBody "")) "error" = false ∧
    dictGet (get_adb_commands_from_gemini (.text noStatusBody "")) "status" = none ∧
    AutomationWorker_run envMissingStatus =
      ⟨.FATAL_CAPTURE, 2, [.capture, .decide, .execute, .capture]⟩ := by
  decide

/-- Claim C5, amended: only malformed reply text is a parse failure —
it yields the invalid-JSON error dict, which differs from the
transport-error dict, and the loop ends any step whose reply carries an
error marker in the fatal-API outcome.  A reply that is valid JSON merely
missing `status` is not a failure: decide() returns it unchanged (no
error key, no status), and with a non-empty command that executes
successfully the loop simply proceeds to the next step. -/
theorem missing_status_reply_not_fatal (env : Nat → StepEnv) (rem cur : Nat)
    (shot cmd reason raw : String)
    (hc : jsonSafe cmd) (hr : jsonSafe reason) (hne : cmd ≠ "")
    (h0 : (env cur).stopBeforeStep = false)
    (h1 : (env cur).stopAfterCapture = false)
    (hcap : (env cur).captureResult = some shot)
    (h2 : (env cur).stopAfterDecide = false)
    (h3 : (env cur).stopAfterExecute = false)
    (hapi : (env cur).apiResult = .text (renderObj [("command", cmd), ("reason", reason)]) raw)
    (hexec : execute_adb_command (env cur).proc cmd = true) :
    get_adb_commands_from_gemini (env cur).apiResult = [("command", cmd), ("reason", reason)] ∧
    dictHasKey [("command", cmd), ("reason", reason)] "error" = false ∧
    dictGet [("command", cmd), ("reason", reason)] "status" = none ∧
    runAux env (rem + 1) cur =
      ⟨(runAux env rem (cur + 1)).outcome, (runAux env rem (cur + 1)).steps,
       [.capture, .decide, .execute] ++ (runAux env rem (cur + 1)).events⟩ ∧
    (∀ body raw2, jsonParse (stripFence body) = none →
      get_adb_commands_from_gemini (.text body raw2) =
        [("error", "Gemini returned invalid JSON: " ++ stripFence body),
         ("raw_response", raw2)]) ∧
    (∀ body raw2 e, jsonParse (stripFence body) = none →
      get_adb_commands_from_gemini (.text body raw2) ≠
        get_adb_commands_from_gemini (.transportError e)) ∧
    (∀ (env2 : Nat → StepEnv) (rem2 cur2 : Nat) (shot2 : String),
      (env2 cur2).stopBeforeStep = false → (env2 cur2).stopAfterCapture = false →
      (env2 cur2).captureResult = some shot2 → (env2 cur2).stopAfterDecide = false →
      dictHasKey (get_adb_commands_from_gemini (env2 cur2).apiResult) "error" = true →
      runAux env2 (rem2 + 1) cur2 = ⟨.FATAL_API, cur2 + 1, [.capture, .decide]⟩) := by
  have hsafe : ∀ kv ∈ [("command", cmd), ("reason", reason)],
      jsonSafe kv.1 ∧ jsonSafe kv.2 := by
    intro kv hkv
    simp only [List.mem_cons, List.not_mem_nil, or_false] at hkv
    rcases hkv with rfl | rfl
    · exact ⟨(by decide : jsonSafe "command"), hc⟩
    · exact ⟨(by decide : jsonSafe "reason"), hr⟩
  have hparse : get_adb_commands_from_gemini (env cur).apiResult =
      [("command", cmd), ("reason", reason)] := by
    rw [hapi]
    unfold get_adb_commands_from_gemini
    simp only [stripFence_renderObj, jsonParse_renderObj _ (by simp) hsafe]
  refine ⟨hparse, by simp [dictHasKey], by simp [dictGet, List.find?], ?_, ?_, ?_, ?_⟩
  · exact runAux_continue_step env rem cur shot cmd h0 h1 hcap h2
      (by simp [hparse, dictHasKey])
      (by simp [hparse, dictGet, List.find?])
      hne
      (by simp [hparse, dictGet, List.find?])
      h3 hexec
  · intro body raw2 hp
    unfold get_adb_commands_from_gemini
    simp only [hp]
  · intro body raw2 e hp heq
    unfold get_adb_commands_from_gemini at heq
    simp only [hp] at heq
    exact absurd (congrArg List.length heq) (by simp)
  · intro env2 rem2 cur2 shot2 g0 g1 gcap g2 gerr
    simp [runAux, stepRun, g0, g1, gcap, g2, gerr]

theorem missing_status_reply_not_fatal_witness :
    get_adb_commands_from_gemini (envMissingStatusR 0).apiResult =
      [("command", "input tap 100 200"), ("reason", "tap")] ∧
    dictHasKey [("command", "input tap 100 200"), ("reason", "tap")] "error" = false ∧
    dictGet [("command", "input tap 100 200"), ("reason", "tap")] "status" = none ∧
    runAux envMissingStatusR 20 0 =
      ⟨(runAux envMissingStatusR 19 1).outcome, (runAux envMissingStatusR 19 1).steps,
       [.capture, .decide, .execute] ++ (runAux envMissingStatusR 19 1).events⟩ :=
  have h := missing_status_reply_not_fatal envMissingStatusR 19 0 "img"
    "input tap 100 200" "tap" "" (by decide) (by decide) (by decide)
    rfl rfl rfl rfl rfl rfl (by decide)
  ⟨h.1, h.2.1, h.2.2.1, h.2.2.2.1⟩

end Glove
